import Mathlib

/-!
Verification of the PC-BASIC video memory codec
(`pcbasic/basic/base/bytematrix.py` and `pcbasic/basic/display/modes.py`).

Bytes are modelled as `Nat` values below 256; byte strings and rows as
`List Nat`.  Fallible Python code (IndexError, KeyError, ValueError,
AssertionError, ZeroDivisionError) is modelled with `Option` / `Except`.
-/

/-! ## Packed byte grid (`bytematrix.py`) -/

/-- A 2D byte matrix, mirroring the `_width`, `_height` and `_rows`
attributes of the Python `ByteMatrix` class. -/
structure ByteMatrix where
  width : Nat
  height : Nat
  rows : List (List Nat)
deriving DecidableEq, Repr

/-- Well-formedness: the stored dimensions agree with the row data,
as maintained by every Python constructor of the class. -/
def ByteMatrix.WF (m : ByteMatrix) : Prop :=
  m.height = m.rows.length ∧ ∀ r ∈ m.rows, r.length = m.width

instance (m : ByteMatrix) : Decidable m.WF := by
  unfold ByteMatrix.WF; infer_instance

/-- Python `range(0, stop, step)` for non-negative bounds.  A zero `step`
raises `ValueError` in Python; callers below guard that case separately
(the model returns `[]` there, which is never relied upon). -/
def pyRange (stop step : Nat) : List Nat :=
  if step = 0 then [] else (List.range ((stop + step - 1) / step)).map (· * step)

/-- The shift schedule `[8 - bpp - sh for sh in range(0, 8, bpp)]` shared by
`unpack_bytes` and `pack_bytes`.  (For the supported depths `bpp` divides 8,
so the natural subtraction never clips.) -/
def shiftsOf (bpp : Nat) : List Nat :=
  (pyRange 8 bpp).map (fun sh => 8 - bpp - sh)

/-- `unpack_bytes(packed, items_per_byte)`: split every packed byte into
`items_per_byte` sub-values of `8 // items_per_byte` bits each,
most significant bits first. -/
def unpack_bytes (packed : List Nat) (items_per_byte : Nat) : List Nat :=
  let bpp := 8 / items_per_byte
  let mask := (1 <<< bpp) - 1
  let shifts := shiftsOf bpp
  (packed.map (fun b => shifts.map (fun sh => (b >>> sh) &&& mask))).flatten

/-- The chunking `[l[o:o+w] for o in range(0, len(l), w)]`.  A zero `w`
raises in Python (`range` step zero); callers guard it. -/
def chunkList (w : Nat) (l : List Nat) : List (List Nat) :=
  if w = 0 then [] else
  (List.range ((l.length + w - 1) / w)).map (fun o => (l.drop (o * w)).take w)

/-- `pack_bytes(unpacked, items_per_byte)`: mask-and-shift each value
against the cyclic shift schedule, then sum each group of
`items_per_byte` prepacked values into one output byte.
(Python's `zip` truncates `unpacked` to `items_per_byte * packed_width`
entries, as `List.zipWith` does here.) -/
def pack_bytes (unpacked : List Nat) (items_per_byte : Nat) : List Nat :=
  let bpp := 8 / items_per_byte
  let mask := (1 <<< bpp) - 1
  let shifts := shiftsOf bpp
  let packed_width := unpacked.length / items_per_byte
  let prepacked :=
    List.zipWith (fun b sh => (b &&& mask) <<< sh) unpacked
      (List.flatten (List.replicate packed_width shifts))
  (chunkList items_per_byte prepacked).map List.sum

/-- `ByteMatrix._create_from_rows(data)`: reads `data[0]` (IndexError when
`data` is empty) and asserts that all rows have the same length. -/
def create_from_rows (data : List (List Nat)) : Option ByteMatrix :=
  match data with
  | [] => none
  | r :: rs =>
      if (r :: rs).all (fun row => row.length = r.length) then
        some ⟨r.length, (r :: rs).length, r :: rs⟩
      else
        none

/-- `ByteMatrix.frompacked(packed, height, items_per_byte)`.
Python raises `ZeroDivisionError` when `height == 0` and `ValueError`
(zero `range` step) when the computed width is 0. -/
def ByteMatrix.frompacked (packed : List Nat) (height items_per_byte : Nat) :
    Option ByteMatrix :=
  if height = 0 then none else
  let width := items_per_byte * packed.length / height
  let unpacked := unpack_bytes packed items_per_byte
  if width = 0 then none else
  create_from_rows (chunkList width unpacked)

/-- `ByteMatrix.packed(items_per_byte)`: join all rows and pack. -/
def ByteMatrix.packed (m : ByteMatrix) (items_per_byte : Nat) : List Nat :=
  pack_bytes m.rows.flatten items_per_byte

/-- `ByteMatrix.render(back, fore)`: each row goes through
`replace(b'\x00', chr(back))` then `replace(b'\x01', chr(fore))`;
a single-byte replace is a per-byte map, and the two passes are
sequential (the second pass also sees bytes produced by the first). -/
def ByteMatrix.render (m : ByteMatrix) (back fore : Nat) : Option ByteMatrix :=
  create_from_rows
    (m.rows.map (fun r =>
      (r.map (fun b => if b = 0 then back else b)).map
        (fun b => if b = 1 then fore else b)))

/-- A Python slice `a:b` with non-negative bounds. -/
structure Slice where
  start : Nat
  stop : Nat
deriving DecidableEq, Repr

/-- Python list slicing `l[a:b]`: the elements with index `i`,
`a ≤ i < min b l.length` (half-open, clipped to bounds). -/
def pySlice (s : Slice) (l : List α) : List α :=
  (l.drop s.start).take (s.stop - s.start)

/-- `__getitem__` with a slice in both axes:
`_create_from_rows([_row[x] for _row in self._rows[y]])`. -/
def ByteMatrix.getSS (m : ByteMatrix) (x y : Slice) : Option ByteMatrix :=
  create_from_rows ((pySlice y m.rows).map (fun r => pySlice x r))

/-- `__getitem__` with a slice in `x` and a scalar `y`:
`_create_from_rows([self._rows[y][x]])`; a scalar row index out of
bounds raises IndexError. -/
def ByteMatrix.getXS (m : ByteMatrix) (x : Slice) (y : Nat) : Option ByteMatrix :=
  match m.rows[y]? with
  | none => none
  | some r => create_from_rows [pySlice x r]

/-- Python `zip(*lists)`: transpose truncated to the shortest list
(`zip()` of no sequences is empty). -/
def zipAll (ls : List (List (List Nat))) : List (List (List Nat)) :=
  match ls with
  | [] => []
  | l :: rest =>
      let n := (rest.map List.length).foldl min l.length
      (List.range n).map (fun i => (l :: rest).map (fun x => x.getD i []))

/-- `hstack(matrices)`: join each tuple of rows produced by `zip`. -/
def hstack (matrices : List ByteMatrix) : Option ByteMatrix :=
  create_from_rows ((zipAll (matrices.map ByteMatrix.rows)).map List.flatten)

/-- `vstack(matrices)`: all rows of all matrices, in order. -/
def vstack (matrices : List ByteMatrix) : Option ByteMatrix :=
  create_from_rows ((matrices.map ByteMatrix.rows).flatten)


/-! ## Video modes (`modes.py`) -/

/-- Python dict lookup, modelled over an association list (the tables in
`modes.py` have pairwise distinct keys, so insertion order is
irrelevant). -/
def pyGet [DecidableEq α] (l : List (α × β)) (k : α) : Option β :=
  match l with
  | [] => none
  | (a, b) :: t => if k = a then some b else pyGet t k

theorem pyGet_mem [DecidableEq α] :
    ∀ (l : List (α × β)) (k : α) (b : β), pyGet l k = some b → (k, b) ∈ l := by
  intro l
  induction l with
  | nil => intro k b h; simp [pyGet] at h
  | cons p t ih =>
      intro k b h
      rw [pyGet] at h
      split_ifs at h with hk
      · obtain ⟨rfl⟩ := h
        subst hk
        exact List.mem_cons_self _ _
      · exact List.mem_cons_of_mem _ (ih k b h)

/-- Modelled from the spec: the interpreter's error module (`error.py`, not
under `src/`) supplies the "illegal function call" condition that
`get_mode` raises as `error.BASICError(error.IFC)`. -/
inductive BasicError where
  | illegal_function_call
deriving DecidableEq, Repr

/-- A key of a per-adapter `_MODES` table: a non-zero mode number, or the
pair `(0, columns)` used for text modes. -/
inductive ModeKey where
  | num (n : Nat)
  | text (columns : Nat)
deriving DecidableEq, Repr

/-- The `_MODES` catalog: per adapter, mode number or `(0, columns)` to
mode name.  The trailing `range'` entries are the Olivetti update mapping
every number 4..255 to the same `640x400x2` super resolution. -/
def MODES_list : List (String × List (ModeKey × String)) := [
  ("cga", [(.text 40, "cgatext40"), (.text 80, "cgatext80"),
           (.num 1, "320x200x4"), (.num 2, "640x200x2")]),
  ("ega", [(.text 40, "egatext40"), (.text 80, "egatext80"),
           (.num 1, "320x200x4"), (.num 2, "640x200x2"),
           (.num 7, "320x200x16"), (.num 8, "640x200x16"), (.num 9, "640x350x16")]),
  ("vga", [(.text 40, "vgatext40"), (.text 80, "vgatext80"),
           (.num 1, "320x200x4"), (.num 2, "640x200x2"),
           (.num 7, "320x200x16"), (.num 8, "640x200x16"), (.num 9, "640x350x16")]),
  ("mda", [(.text 40, "mdatext40"), (.text 80, "mdatext80")]),
  ("ega_mono", [(.text 40, "ega_monotext40"), (.text 80, "ega_monotext80"),
                (.num 10, "640x350x4")]),
  ("hercules", [(.text 40, "mdatext40"), (.text 80, "mdatext80"),
                (.num 3, "720x348x2")]),
  ("tandy", [(.text 40, "tandytext40"), (.text 80, "tandytext80"),
             (.num 1, "320x200x4_8pg"), (.num 2, "640x200x2_8pg"),
             (.num 3, "160x200x16"), (.num 4, "320x200x4pcjr"),
             (.num 5, "320x200x16pcjr"), (.num 6, "640x200x4")]),
  ("pcjr", [(.text 40, "cgatext40"), (.text 80, "cgatext80"),
            (.num 1, "320x200x4_8pg"), (.num 2, "640x200x2_8pg"),
            (.num 3, "160x200x16"), (.num 4, "320x200x4pcjr"),
            (.num 5, "320x200x16pcjr"), (.num 6, "640x200x4")]),
  ("olivetti", [(.text 40, "olivettitext40"), (.text 80, "olivettitext80"),
                (.num 1, "320x200x4"), (.num 2, "640x200x2"), (.num 3, "640x400x2")]
               ++ (List.range' 4 252).map (fun n => (ModeKey.num n, "640x400x2")))]

/-- `_MODES[adapter][key]`; a missing adapter or key is a `KeyError`. -/
def MODES (adapter : String) (k : ModeKey) : Option String :=
  (pyGet MODES_list adapter).bind (fun t => pyGet t k)

/-- One parameter bundle of the `_GRAPHICS_MODES` table.  `layout` and
`colourmap` record the class names selected by the bundle; `planes_used`
is `none` where the bundle does not override the EGA default
`range(4)`. -/
structure GraphicsModeData where
  width : Nat
  height : Nat
  rows : Nat
  columns : Nat
  attr : Nat
  bitsperpixel : Nat
  interleave_times : Nat
  bank_size : Nat
  max_pages : Option Nat
  cursor_index : Option Nat
  planes_used : Option (List Nat)
  layout : String
  colourmap : String
deriving DecidableEq, Repr

/-- The `_GRAPHICS_MODES` table as literally written in the source,
before the 8-page alias lines run. -/
def GRAPHICS_MODES_list : List (String × GraphicsModeData) := [
  ("320x200x4",
    { width := 320, height := 200, rows := 25, columns := 40, attr := 3,
      bitsperpixel := 2, interleave_times := 2, bank_size := 0x2000, max_pages := some 1,
      cursor_index := none, planes_used := none,
      layout := "CGAMode", colourmap := "CGA4ColourMapper" }),
  ("640x200x2",
    { width := 640, height := 200, rows := 25, columns := 80, attr := 1,
      bitsperpixel := 1, interleave_times := 2, bank_size := 0x2000, max_pages := some 1,
      cursor_index := none, planes_used := none,
      layout := "CGAMode", colourmap := "CGA2ColourMapper" }),
  ("160x200x16",
    { width := 160, height := 200, rows := 25, columns := 20, attr := 15,
      bitsperpixel := 4, interleave_times := 2, bank_size := 0x2000, max_pages := some 8,
      cursor_index := some 3, planes_used := none,
      layout := "CGAMode", colourmap := "CGA16ColourMapper" }),
  ("320x200x4pcjr",
    { width := 320, height := 200, rows := 25, columns := 40, attr := 3,
      bitsperpixel := 2, interleave_times := 2, bank_size := 0x2000, max_pages := some 8,
      cursor_index := some 3, planes_used := none,
      layout := "CGAMode", colourmap := "CGA4ColourMapper" }),
  ("320x200x16pcjr",
    { width := 320, height := 200, rows := 25, columns := 40, attr := 15,
      bitsperpixel := 4, interleave_times := 4, bank_size := 0x2000, max_pages := some 4,
      cursor_index := some 3, planes_used := none,
      layout := "CGAMode", colourmap := "CGA16ColourMapper" }),
  ("640x200x4",
    { width := 640, height := 200, rows := 25, columns := 80, attr := 3,
      bitsperpixel := 2, interleave_times := 4, bank_size := 0x2000, max_pages := some 4,
      cursor_index := some 3, planes_used := none,
      layout := "Tandy6Mode", colourmap := "CGA4ColourMapper" }),
  ("320x200x16",
    { width := 320, height := 200, rows := 25, columns := 40, attr := 15,
      bitsperpixel := 4, interleave_times := 1, bank_size := 0x2000, max_pages := none,
      cursor_index := none, planes_used := none,
      layout := "EGAMode", colourmap := "EGA16ColourMapper" }),
  ("640x200x16",
    { width := 640, height := 200, rows := 25, columns := 80, attr := 15,
      bitsperpixel := 4, interleave_times := 1, bank_size := 0x4000, max_pages := none,
      cursor_index := none, planes_used := none,
      layout := "EGAMode", colourmap := "EGA16ColourMapper" }),
  ("640x350x16",
    { width := 640, height := 350, rows := 25, columns := 80, attr := 15,
      bitsperpixel := 4, interleave_times := 1, bank_size := 0x8000, max_pages := none,
      cursor_index := none, planes_used := none,
      layout := "EGAMode", colourmap := "EGA64ColourMapper" }),
  ("640x350x4",
    { width := 640, height := 350, rows := 25, columns := 80, attr := 1,
      bitsperpixel := 2, interleave_times := 1, bank_size := 0x8000, max_pages := none,
      cursor_index := none, planes_used := some [1, 3],
      layout := "EGAMode", colourmap := "EGAMonoColourMapper" }),
  ("640x400x2",
    { width := 640, height := 400, rows := 25, columns := 80, attr := 1,
      bitsperpixel := 1, interleave_times := 4, bank_size := 0x2000, max_pages := some 1,
      cursor_index := none, planes_used := none,
      layout := "CGAMode", colourmap := "CGA2ColourMapper" }),
  ("720x348x2",
    { width := 720, height := 348, rows := 25, columns := 80, attr := 1,
      bitsperpixel := 1, interleave_times := 4, bank_size := 0x2000, max_pages := some 2,
      cursor_index := none, planes_used := none,
      layout := "CGAMode", colourmap := "HerculesColourMapper" })]

/-- The state of `_GRAPHICS_MODES` after module initialisation.  The
`'320x200x4_8pg'` and `'640x200x2_8pg'` aliases are bound to the *same*
dict objects as `'320x200x4'` and `'640x200x2'`, so the subsequent
`['max_pages'] = 8` assignments mutate the shared objects: the base
entries also end up carrying `max_pages == 8`. -/
def GRAPHICS_MODES (name : String) : Option GraphicsModeData :=
  if name = "320x200x4_8pg" then
    (pyGet GRAPHICS_MODES_list "320x200x4").map (fun d => { d with max_pages := some 8 })
  else if name = "640x200x2_8pg" then
    (pyGet GRAPHICS_MODES_list "640x200x2").map (fun d => { d with max_pages := some 8 })
  else if name = "320x200x4" ∨ name = "640x200x2" then
    (pyGet GRAPHICS_MODES_list name).map (fun d => { d with max_pages := some 8 })
  else
    pyGet GRAPHICS_MODES_list name

/-- One parameter bundle of the `_TEXT_MODES` table (`layout` is always
`TextMode`). -/
structure TextModeData where
  rows : Nat
  columns : Nat
  font_height : Nat
  font_width : Nat
  attr : Nat
  max_pages : Nat
  mono : Bool
  colourmap : String
deriving DecidableEq, Repr

/-- The `_TEXT_MODES` table. -/
def TEXT_MODES_list : List (String × TextModeData) := [
  ("vgatext40",
    { rows := 25, columns := 40, font_height := 16, font_width := 9, attr := 7,
      max_pages := 8, mono := false, colourmap := "EGA64TextColourMapper" }),
  ("vgatext80",
    { rows := 25, columns := 80, font_height := 16, font_width := 9, attr := 7,
      max_pages := 4, mono := false, colourmap := "EGA64TextColourMapper" }),
  ("egatext40",
    { rows := 25, columns := 40, font_height := 14, font_width := 8, attr := 7,
      max_pages := 8, mono := false, colourmap := "EGA64TextColourMapper" }),
  ("egatext80",
    { rows := 25, columns := 80, font_height := 14, font_width := 8, attr := 7,
      max_pages := 4, mono := false, colourmap := "EGA64TextColourMapper" }),
  ("ega_monotext40",
    { rows := 25, columns := 40, font_height := 14, font_width := 8, attr := 7,
      max_pages := 8, mono := true, colourmap := "MonoTextColourMapper" }),
  ("ega_monotext80",
    { rows := 25, columns := 80, font_height := 14, font_width := 8, attr := 7,
      max_pages := 4, mono := true, colourmap := "MonoTextColourMapper" }),
  ("mdatext40",
    { rows := 25, columns := 40, font_height := 14, font_width := 9, attr := 7,
      max_pages := 1, mono := true, colourmap := "MonoTextColourMapper" }),
  ("mdatext80",
    { rows := 25, columns := 80, font_height := 14, font_width := 9, attr := 7,
      max_pages := 1, mono := true, colourmap := "MonoTextColourMapper" }),
  ("tandytext40",
    { rows := 25, columns := 40, font_height := 9, font_width := 8, attr := 7,
      max_pages := 8, mono := false, colourmap := "EGA16TextColourMapper" }),
  ("tandytext80",
    { rows := 25, columns := 80, font_height := 9, font_width := 8, attr := 7,
      max_pages := 4, mono := false, colourmap := "EGA16TextColourMapper" }),
  ("cgatext40",
    { rows := 25, columns := 40, font_height := 8, font_width := 8, attr := 7,
      max_pages := 8, mono := false, colourmap := "EGA16TextColourMapper" }),
  ("cgatext80",
    { rows := 25, columns := 80, font_height := 8, font_width := 8, attr := 7,
      max_pages := 4, mono := false, colourmap := "EGA16TextColourMapper" }),
  ("olivettitext40",
    { rows := 25, columns := 40, font_height := 16, font_width := 8, attr := 7,
      max_pages := 8, mono := false, colourmap := "EGA16ColourMapper" }),
  ("olivettitext80",
    { rows := 25, columns := 80, font_height := 16, font_width := 8, attr := 7,
      max_pages := 4, mono := false, colourmap := "EGA16ColourMapper" })]

/-- `_TEXT_MODES[name]`. -/
def TEXT_MODES (name : String) : Option TextModeData :=
  pyGet TEXT_MODES_list name

/-- A resolved video mode descriptor, mirroring the attribute state of a
fully initialised `TextMode` / `GraphicsMode` object.  `max_pages` and
`mono` record the page-limit and monochrome parameters handed to the
(external) memory mapper; `family` records the layout class selected by
the catalog. -/
structure Mode where
  name : String
  height : Nat
  width : Nat
  font_height : Nat
  font_width : Nat
  pixel_height : Nat
  pixel_width : Nat
  attr : Nat
  is_text_mode : Bool
  bitsperpixel : Option Nat
  cursor_index : Option Nat
  max_pages : Option Nat
  mono : Option Bool
  mode_5 : Nat
  family : String
deriving DecidableEq, Repr

/-- Modelled from the spec: the colour mapper (`colours.py`, not under
`src/`) is constructed from `(adapter, monitor)` and, for the 320x200x4
family, exposes a flag `mode_5` selecting between the two hardware
variants of that resolution.  Only the 320x200x4 branch of
`get_mode_number` ever reads it, and no claim depends on its value, so
the model fixes it to 0. -/
def colourmap_mode_5 (adapter monitor : String) : Nat := 0

/-- Python `-(-height // rows)` where `//` is floor division: ceiling
division, as used by `GraphicsMode.__init__` for the font height. -/
def ceildiv_py (height rows : Nat) : Nat :=
  (-(Int.fdiv (-(height : Int)) (rows : Int))).toNat

/-- `_get_graphics_mode(name, adapter, monitor, video_mem_size)`:
instantiate from the graphics parameter table.  `GraphicsMode.__init__`
derives `font_width = width // columns` and `font_height = -(-height //
rows)`, and overrides the pixel dimensions computed by
`VideoMode.__init__` with the table's. -/
def _get_graphics_mode (name adapter monitor : String) (video_mem_size : Nat) :
    Option Mode :=
  (GRAPHICS_MODES name).map (fun d =>
    { name := name
      height := d.rows
      width := d.columns
      font_height := ceildiv_py d.height d.rows
      font_width := d.width / d.columns
      pixel_height := d.height
      pixel_width := d.width
      attr := d.attr
      is_text_mode := false
      bitsperpixel := some d.bitsperpixel
      cursor_index := d.cursor_index
      max_pages := d.max_pages
      mono := none
      mode_5 := colourmap_mode_5 adapter monitor
      family := d.layout })

/-- `_get_text_mode(name, adapter, monitor, video_mem_size)`:
instantiate from the text parameter table.  `VideoMode.__init__` derives
`pixel_height = rows * font_height` and `pixel_width = columns *
font_width`.  (`mode_5` is never read for text modes.) -/
def _get_text_mode (name adapter monitor : String) (video_mem_size : Nat) :
    Option Mode :=
  (TEXT_MODES name).map (fun d =>
    { name := name
      height := d.rows
      width := d.columns
      font_height := d.font_height
      font_width := d.font_width
      pixel_height := d.rows * d.font_height
      pixel_width := d.columns * d.font_width
      attr := d.attr
      is_text_mode := true
      bitsperpixel := none
      cursor_index := none
      max_pages := some d.max_pages
      mono := some d.mono
      mode_5 := 0
      family := "TextMode" })

/-- `get_mode(number, width, adapter, monitor, video_mem_size)`: the
`try` block covers both the catalog lookup and the instantiation; any
`KeyError` becomes `BASICError(IFC)`.  Python's `if number:` sends every
non-zero number down the graphics branch. -/
def get_mode (number width : Nat) (adapter monitor : String) (video_mem_size : Nat) :
    Except BasicError Mode :=
  let result :=
    if number ≠ 0 then
      (MODES adapter (.num number)).bind
        (fun name => _get_graphics_mode name adapter monitor video_mem_size)
    else
      (MODES adapter (.text width)).bind
        (fun name => _get_text_mode name adapter monitor video_mem_size)
  match result with
  | some m => Except.ok m
  | none => Except.error BasicError.illegal_function_call

/-- The `_MODE_NUMBER` table of historical mode identifiers
(the Hercules `720x348x2` mode is deliberately absent). -/
def MODE_NUMBER_list : List (String × Nat) := [
  ("640x200x2", 6), ("160x200x16", 8), ("320x200x16pcjr", 9),
  ("640x200x4", 10), ("320x200x16", 13), ("640x200x16", 14),
  ("640x350x4", 15), ("640x350x16", 16), ("640x400x2", 0x40),
  ("320x200x4pcjr", 4), ("320x200x4", 4)]

/-- `_MODE_NUMBER[name]`. -/
def MODE_NUMBER (name : String) : Option Nat :=
  pyGet MODE_NUMBER_list name

/-- `get_mode_number(mode, colorswitch)`.  Python's `(mode.width == 40) *
2` multiplies a boolean; the `KeyError` fallback returns the sentinel
`0xff`. -/
def get_mode_number (mode : Mode) (colorswitch : Nat) : Nat :=
  if mode.is_text_mode then
    if mode.name = "mdatext80" ∨ mode.name = "ega_monotext80" then 7
    else (if mode.width = 40 then 1 else 0) * 2 + colorswitch % 2
  else if mode.name = "320x200x4" then 4 + mode.mode_5
  else (MODE_NUMBER mode.name).getD 0xff

/-- A key of a `TO_WIDTH` table: a mode number, or a graphics-mode name
added by the augmentation loop. -/
inductive WidthKey where
  | num (n : Nat)
  | name (s : String)
deriving DecidableEq, Repr

/-- The numeric entries of `TO_WIDTH` as literally written: per adapter
and current mode number, the map from requested columns to target mode
number. -/
def TO_WIDTH_list : List (String × List (Nat × List (Nat × Nat))) := [
  ("cga", [(0, [(40, 0), (80, 0)]),
           (1, [(40, 1), (80, 2)]),
           (2, [(40, 1), (80, 2)])]),
  ("ega", [(0, [(40, 0), (80, 0)]),
           (1, [(40, 1), (80, 2)]),
           (2, [(40, 1), (80, 2)]),
           (7, [(40, 7), (80, 8)]),
           (8, [(40, 7), (80, 8)]),
           (9, [(40, 1), (80, 9)])]),
  ("mda", [(0, [(40, 0), (80, 0)])]),
  ("ega_mono", [(0, [(40, 0), (80, 0)]),
                (10, [(40, 0), (80, 10)])]),
  ("hercules", [(0, [(40, 0), (80, 0)]),
                (3, [(40, 0), (80, 3)])]),
  ("pcjr", [(0, [(20, 3), (40, 0), (80, 0)]),
            (1, [(20, 3), (40, 1), (80, 2)]),
            (2, [(20, 3), (40, 1), (80, 2)]),
            (3, [(20, 3), (40, 1), (80, 2)]),
            (4, [(20, 3), (40, 4), (80, 2)]),
            (5, [(20, 3), (40, 5), (80, 6)]),
            (6, [(20, 3), (40, 5), (80, 6)])]),
  ("olivetti", [(0, [(40, 0), (80, 0)]),
                (1, [(40, 1), (80, 2)]),
                (2, [(40, 1), (80, 2)]),
                (3, [(40, 1), (80, 3)])])]

/-- Adapter aliasing performed after the name augmentation:
`TO_WIDTH['vga'] = TO_WIDTH['ega']` and `TO_WIDTH['tandy'] =
TO_WIDTH['pcjr']` (both alias the already-augmented dicts). -/
def to_width_alias (adapter : String) : String :=
  if adapter = "vga" then "ega" else if adapter = "tandy" then "pcjr" else adapter

/-- The `TO_WIDTH` table after initialisation: numeric keys from the
literal table, plus — for every non-zero (truthy) numeric key `nr` — the
graphics-mode name `_MODES[adapter][nr]` bound to the same switch map. -/
def TO_WIDTH (adapter : String) (k : WidthKey) : Option (List (Nat × Nat)) :=
  let a := to_width_alias adapter
  (pyGet TO_WIDTH_list a).bind (fun tbl =>
    match k with
    | .num n => pyGet tbl n
    | .name s =>
        (tbl.find? (fun e => (e.1 != 0) && (MODES a (.num e.1) == some s))).map
          (fun e => e.2))

/-- `VideoMode.pixel_to_text_pos(x, y)`.  Valid pixel coordinates are
non-negative, where Python's floor division agrees with `Nat`
division. -/
def Mode.pixel_to_text_pos (m : Mode) (x y : Nat) : Nat × Nat :=
  (1 + y / m.font_height, 1 + x / m.font_width)

/-- `VideoMode.text_to_pixel_pos(row, col)`.  On the valid 1-based domain
`row, col ≥ 1` Python's integer subtraction agrees with `Nat`
subtraction. -/
def Mode.text_to_pixel_pos (m : Mode) (row col : Nat) : Nat × Nat :=
  ((col - 1) * m.font_width, (row - 1) * m.font_height)

/-! ## Helper lemmas on the catalog -/

theorem GRAPHICS_MODES_cases :
    ∀ name d, GRAPHICS_MODES name = some d →
      ∃ p ∈ GRAPHICS_MODES_list, d = p.2 ∨ d = { p.2 with max_pages := some 8 } := by
  intro name d h
  unfold GRAPHICS_MODES at h
  split_ifs at h with h1 h2 h3
  · simp only [GRAPHICS_MODES_list, pyGet, String.reduceEq, reduceIte,
      Option.map_some', Option.some.injEq] at h
    subst h
    exact ⟨GRAPHICS_MODES_list[0], by decide, Or.inr (by decide)⟩
  · simp only [GRAPHICS_MODES_list, pyGet, String.reduceEq, reduceIte,
      Option.map_some', Option.some.injEq] at h
    subst h
    exact ⟨GRAPHICS_MODES_list[1], by decide, Or.inr (by decide)⟩
  · rcases h3 with rfl | rfl
    · simp only [GRAPHICS_MODES_list, pyGet, String.reduceEq, reduceIte,
        Option.map_some', Option.some.injEq] at h
      subst h
      exact ⟨GRAPHICS_MODES_list[0], by decide, Or.inr (by decide)⟩
    · simp only [GRAPHICS_MODES_list, pyGet, String.reduceEq, reduceIte,
        Option.map_some', Option.some.injEq] at h
      subst h
      exact ⟨GRAPHICS_MODES_list[1], by decide, Or.inr (by decide)⟩
  · exact ⟨_, pyGet_mem _ _ _ h, Or.inl rfl⟩

/-! ## Claims C8 and C9 -/

/-- C8: text-to-pixel and pixel-to-text position conversion are mutually
inverse on valid 1-based text coordinates, for every mode descriptor with
positive font cell width and height. -/
theorem C8_text_pixel_pos_roundtrip (m : Mode) (row col : Nat)
    (hfh : 0 < m.font_height) (hfw : 0 < m.font_width)
    (hrow : 1 ≤ row) (hcol : 1 ≤ col) :
    m.pixel_to_text_pos (m.text_to_pixel_pos row col).1 (m.text_to_pixel_pos row col).2
      = (row, col) := by
  simp only [Mode.pixel_to_text_pos, Mode.text_to_pixel_pos, Prod.mk.injEq]
  constructor
  · rw [Nat.mul_div_cancel _ hfh]; omega
  · rw [Nat.mul_div_cancel _ hfw]; omega

/-- The mode descriptor produced by resolving `SCREEN 0, 80` on CGA: the
`cgatext80` text mode with an 8x8 font cell. -/
def cgatext80_mode : Mode :=
  { name := "cgatext80", height := 25, width := 80, font_height := 8,
    font_width := 8, pixel_height := 200, pixel_width := 640, attr := 7,
    is_text_mode := true, bitsperpixel := none, cursor_index := none,
    max_pages := some 4, mono := some false, mode_5 := 0,
    family := "TextMode" }

/-- Witness for C8: the resolved `cgatext80` mode has an 8x8 font cell and
text position (3, 5) round-trips through pixel coordinates. -/
theorem C8_text_pixel_pos_roundtrip_witness :
    get_mode 0 80 "cga" "mono" 16384 = Except.ok cgatext80_mode
    ∧ cgatext80_mode.pixel_to_text_pos
        (cgatext80_mode.text_to_pixel_pos 3 5).1
        (cgatext80_mode.text_to_pixel_pos 3 5).2 = (3, 5) :=
  ⟨rfl,
   C8_text_pixel_pos_roundtrip cgatext80_mode 3 5 (by decide) (by decide)
     (by decide) (by decide)⟩

/-- The mode descriptor produced by resolving `SCREEN 3` on Hercules. -/
def hercules_mode : Mode :=
  { name := "720x348x2", height := 25, width := 80, font_height := 14,
    font_width := 9, pixel_height := 348, pixel_width := 720, attr := 1,
    is_text_mode := false, bitsperpixel := some 1, cursor_index := none,
    max_pages := some 2, mono := none, mode_5 := 0, family := "CGAMode" }

/-- C9: every constructed graphics-mode descriptor has font cell height
equal to the ceiling of pixel height over character rows, and font cell
width dividing the pixel width exactly by the column count; in
particular the Hercules 720x348 mode gets a 14-pixel font height even
though 14 * 25 is not 348. -/
theorem C9_graphics_font_geometry :
    (∀ name adapter monitor mem m,
      _get_graphics_mode name adapter monitor mem = some m →
        m.font_height = (m.pixel_height + m.height - 1) / m.height
        ∧ m.font_width * m.width = m.pixel_width)
    ∧ (∀ monitor mem m, get_mode 3 0 "hercules" monitor mem = Except.ok m →
        m.font_height = 14 ∧ m.height = 25 ∧ m.pixel_height = 348
        ∧ 14 * 25 ≠ 348) := by
  constructor
  · intro name adapter monitor mem m h
    unfold _get_graphics_mode at h
    cases hG : GRAPHICS_MODES name with
    | none => rw [hG] at h; simp at h
    | some d =>
        rw [hG] at h
        simp only [Option.map_some', Option.some.injEq] at h
        subst h
        show ceildiv_py d.height d.rows = (d.height + d.rows - 1) / d.rows
          ∧ d.width / d.columns * d.columns = d.width
        obtain ⟨p, hp, hd⟩ := GRAPHICS_MODES_cases name d hG
        have key : ∀ q ∈ GRAPHICS_MODES_list,
            (ceildiv_py q.2.height q.2.rows = (q.2.height + q.2.rows - 1) / q.2.rows
              ∧ q.2.width / q.2.columns * q.2.columns = q.2.width) := by decide
        rcases hd with rfl | rfl
        · exact key p hp
        · exact key p hp
  · intro monitor mem m h
    have heval : get_mode 3 0 "hercules" monitor mem = Except.ok hercules_mode := rfl
    rw [heval] at h
    injection h with h
    subst h
    refine ⟨by decide, by decide, by decide, by decide⟩

/-- Witness for C9: the Hercules graphics mode resolves with font height
`ceil(348/25) = 14` and exact font width `720/80 = 9`. -/
theorem C9_graphics_font_geometry_witness :
    ∃ m, _get_graphics_mode "720x348x2" "hercules" "mono" 16384 = some m
      ∧ m.font_height = (m.pixel_height + m.height - 1) / m.height
      ∧ m.font_width * m.width = m.pixel_width :=
  ⟨_, rfl, C9_graphics_font_geometry.1 "720x348x2" "hercules" "mono" 16384 _ rfl⟩

/-! ## Claims C10 and C6 -/

/-- The mode descriptor produced by resolving `SCREEN 1` on CGA. -/
def cga_screen1_mode : Mode :=
  { name := "320x200x4", height := 25, width := 40, font_height := 8,
    font_width := 8, pixel_height := 200, pixel_width := 320, attr := 3,
    is_text_mode := false, bitsperpixel := some 2, cursor_index := none,
    max_pages := some 8, mono := none, mode_5 := 0, family := "CGAMode" }

/-- The mode descriptor produced by resolving `SCREEN 2` on CGA. -/
def cga_screen2_mode : Mode :=
  { name := "640x200x2", height := 25, width := 80, font_height := 8,
    font_width := 8, pixel_height := 200, pixel_width := 640, attr := 1,
    is_text_mode := false, bitsperpixel := some 1, cursor_index := none,
    max_pages := some 8, mono := none, mode_5 := 0, family := "CGAMode" }

/-- C10: because the Tandy/PCjr eight-page aliases share their
parameter-bundle objects with the base entries, after catalog
initialisation `320x200x4` and `640x200x2` also carry `max_pages == 8`,
and resolving those mode names for any adapter hands the memory mapper a
page limit of 8 rather than the 1 page written in the table. -/
theorem C10_shared_bundle_max_pages :
    ((GRAPHICS_MODES "320x200x4").map GraphicsModeData.max_pages = some (some 8))
    ∧ ((GRAPHICS_MODES "640x200x2").map GraphicsModeData.max_pages = some (some 8))
    ∧ (pyGet GRAPHICS_MODES_list "320x200x4" =
        some { width := 320, height := 200, rows := 25, columns := 40, attr := 3,
               bitsperpixel := 2, interleave_times := 2, bank_size := 0x2000,
               max_pages := some 1, cursor_index := none, planes_used := none,
               layout := "CGAMode", colourmap := "CGA4ColourMapper" })
    ∧ (∀ adapter monitor mem m,
        _get_graphics_mode "320x200x4" adapter monitor mem = some m →
          m.max_pages = some 8)
    ∧ (∀ adapter monitor mem m,
        _get_graphics_mode "640x200x2" adapter monitor mem = some m →
          m.max_pages = some 8)
    ∧ (∀ monitor mem m, get_mode 1 0 "cga" monitor mem = Except.ok m →
          m.name = "320x200x4" ∧ m.max_pages = some 8)
    ∧ (∀ monitor mem m, get_mode 2 0 "cga" monitor mem = Except.ok m →
          m.name = "640x200x2" ∧ m.max_pages = some 8) := by
  refine ⟨by decide, by decide, by decide, ?_, ?_, ?_, ?_⟩
  · intro adapter monitor mem m h
    have heval : _get_graphics_mode "320x200x4" adapter monitor mem =
        some cga_screen1_mode := rfl
    rw [heval] at h
    injection h with h
    subst h
    rfl
  · intro adapter monitor mem m h
    have heval : _get_graphics_mode "640x200x2" adapter monitor mem =
        some cga_screen2_mode := rfl
    rw [heval] at h
    injection h with h
    subst h
    rfl
  · intro monitor mem m h
    have heval : get_mode 1 0 "cga" monitor mem = Except.ok cga_screen1_mode := rfl
    rw [heval] at h
    injection h with h
    subst h
    exact ⟨rfl, rfl⟩
  · intro monitor mem m h
    have heval : get_mode 2 0 "cga" monitor mem = Except.ok cga_screen2_mode := rfl
    rw [heval] at h
    injection h with h
    subst h
    exact ⟨rfl, rfl⟩

/-- Witness for C10: on CGA, `SCREEN 1` resolves to `320x200x4` with an
8-page limit. -/
theorem C10_shared_bundle_max_pages_witness :
    get_mode 1 0 "cga" "composite" 16384 = Except.ok cga_screen1_mode
    ∧ cga_screen1_mode.name = "320x200x4"
    ∧ cga_screen1_mode.max_pages = some 8 :=
  ⟨rfl,
   (C10_shared_bundle_max_pages.2.2.2.2.2.1 "composite" 16384 cga_screen1_mode rfl).1,
   (C10_shared_bundle_max_pages.2.2.2.2.2.1 "composite" 16384 cga_screen1_mode rfl).2⟩

/-- The mode descriptor produced by resolving `SCREEN 0, 40` on CGA. -/
def cgatext40_mode : Mode :=
  { name := "cgatext40", height := 25, width := 40, font_height := 8,
    font_width := 8, pixel_height := 200, pixel_width := 320, attr := 7,
    is_text_mode := true, bitsperpixel := none, cursor_index := none,
    max_pages := some 8, mono := some false, mode_5 := 0,
    family := "TextMode" }

/-- C6: `get_mode_number` returns 7 for the `mdatext80` /
`ega_monotext80` text modes; `2*(columns == 40) + colorswitch % 2` for
every other text mode (so the 80-column CGA text descriptor with
colorswitch 0 gives 0 and the 40-column one with colorswitch 1 gives 3);
`4 + colourmap.mode_5` for the `320x200x4` graphics mode; the historical
table value for other named graphics modes; and the sentinel `0xff` —
with no error raised — when the name is absent from the table, as for
the Hercules `720x348x2` mode. -/
theorem C6_get_mode_number_cases :
    (∀ (m : Mode) (cs : Nat), m.is_text_mode = true →
      ((m.name = "mdatext80" ∨ m.name = "ega_monotext80") →
          get_mode_number m cs = 7)
      ∧ (m.name ≠ "mdatext80" → m.name ≠ "ega_monotext80" →
          get_mode_number m cs = (if m.width = 40 then 1 else 0) * 2 + cs % 2))
    ∧ (∀ (m : Mode) (cs : Nat), m.is_text_mode = false →
      (m.name = "320x200x4" → get_mode_number m cs = 4 + m.mode_5)
      ∧ (m.name ≠ "320x200x4" →
          get_mode_number m cs = (MODE_NUMBER m.name).getD 0xff))
    ∧ MODE_NUMBER "720x348x2" = none
    ∧ (∀ monitor mem m cs, get_mode 3 0 "hercules" monitor mem = Except.ok m →
        get_mode_number m cs = 0xff)
    ∧ (∀ monitor mem m, get_mode 0 80 "cga" monitor mem = Except.ok m →
        get_mode_number m 0 = 0)
    ∧ (∀ monitor mem m, get_mode 0 40 "cga" monitor mem = Except.ok m →
        get_mode_number m 1 = 3) := by
  refine ⟨?_, ?_, by decide, ?_, ?_, ?_⟩
  · intro m cs htext
    constructor
    · intro hname
      unfold get_mode_number
      rw [htext, if_pos rfl, if_pos hname]
    · intro h1 h2
      unfold get_mode_number
      rw [htext, if_pos rfl, if_neg (by simp [h1, h2])]
  · intro m cs hgfx
    constructor
    · intro hname
      unfold get_mode_number
      rw [hgfx, if_neg (by simp), if_pos hname]
    · intro hname
      unfold get_mode_number
      rw [hgfx, if_neg (by simp), if_neg hname]
  · intro monitor mem m cs h
    have heval : get_mode 3 0 "hercules" monitor mem = Except.ok hercules_mode := rfl
    rw [heval] at h
    injection h with h
    subst h
    rfl
  · intro monitor mem m h
    have heval : get_mode 0 80 "cga" monitor mem = Except.ok cgatext80_mode := rfl
    rw [heval] at h
    injection h with h
    subst h
    rfl
  · intro monitor mem m h
    have heval : get_mode 0 40 "cga" monitor mem = Except.ok cgatext40_mode := rfl
    rw [heval] at h
    injection h with h
    subst h
    rfl

/-- Witness for C6: the resolved CGA text descriptors and the Hercules
graphics descriptor produce legacy numbers 0, 3 and 0xff. -/
theorem C6_get_mode_number_cases_witness :
    get_mode_number cgatext80_mode 0 = 0
    ∧ get_mode_number cgatext40_mode 1 = 3
    ∧ get_mode_number hercules_mode 0 = 0xff
    ∧ get_mode_number cga_screen1_mode 0 = 4 + cga_screen1_mode.mode_5 :=
  ⟨C6_get_mode_number_cases.2.2.2.2.1 "rgb" 16384 cgatext80_mode rfl,
   C6_get_mode_number_cases.2.2.2.2.2 "rgb" 16384 cgatext40_mode rfl,
   C6_get_mode_number_cases.2.2.2.1 "rgb" 16384 hercules_mode 0 rfl,
   (C6_get_mode_number_cases.2.1 cga_screen1_mode 0 rfl).1 rfl⟩

/-! ## Claim C2 -/

set_option maxRecDepth 8192 in
/-- Every name reachable through the `_MODES` catalog has a parameter
bundle: graphics names are in `_GRAPHICS_MODES`, text names in
`_TEXT_MODES`, so the only `KeyError` in `get_mode` comes from the
catalog lookup itself. -/
theorem MODES_names_resolve :
    ∀ adapter k name, MODES adapter k = some name →
      (∀ n, k = ModeKey.num n → (GRAPHICS_MODES name).isSome)
      ∧ (∀ w, k = ModeKey.text w → (TEXT_MODES name).isSome) := by
  intro adapter k name h
  unfold MODES at h
  cases hA : pyGet MODES_list adapter with
  | none => rw [hA] at h; simp at h
  | some t =>
      rw [hA] at h
      simp only [Option.some_bind] at h
      have ht := pyGet_mem _ _ _ hA
      have hk := pyGet_mem _ _ _ h
      have key : ∀ p ∈ MODES_list, ∀ q ∈ p.2,
          (match q.1 with
           | ModeKey.num _ => (GRAPHICS_MODES q.2).isSome
           | ModeKey.text _ => (TEXT_MODES q.2).isSome) = true := by decide
      have hq := key _ ht (k, name) hk
      constructor
      · intro n hn
        subst hn
        exact hq
      · intro w hw
        subst hw
        exact hq

/-- C2: `get_mode` yields the "illegal function call" condition exactly
when the adapter's `_MODES` table has no entry for the requested mode
number (or `(0, width)` pair); for every defined combination it returns
a fully constructed descriptor carrying the looked-up name, and never
substitutes a default mode. -/
theorem C2_get_mode_error_path :
    ∀ number width adapter monitor mem,
      (get_mode number width adapter monitor mem
          = Except.error BasicError.illegal_function_call
        ↔ (if number ≠ 0 then MODES adapter (.num number)
           else MODES adapter (.text width)) = none)
      ∧ (∀ m, get_mode number width adapter monitor mem = Except.ok m →
          (if number ≠ 0 then MODES adapter (.num number)
           else MODES adapter (.text width)) = some m.name)
      ∧ (∀ name,
          (if number ≠ 0 then MODES adapter (.num number)
           else MODES adapter (.text width)) = some name →
          ∃ m, get_mode number width adapter monitor mem = Except.ok m
            ∧ m.name = name) := by
  intro number width adapter monitor mem
  by_cases hn : number = 0
  · subst hn
    simp only [ne_eq, not_true_eq_false, if_false, reduceIte]
    cases hM : MODES adapter (.text width) with
    | none =>
        unfold get_mode
        simp only [ne_eq, not_true_eq_false, if_false, reduceIte, hM,
          Option.none_bind]
        exact ⟨by simp, by simp, by simp⟩
    | some name =>
        have hsome := ((MODES_names_resolve adapter _ name hM).2 width rfl)
        cases hT : TEXT_MODES name with
        | none => rw [hT] at hsome; simp at hsome
        | some d =>
            unfold get_mode
            simp only [ne_eq, not_true_eq_false, if_false, reduceIte, hM,
              Option.some_bind]
            unfold _get_text_mode
            rw [hT]
            simp only [Option.map_some']
            refine ⟨by simp, ?_, ?_⟩
            · intro m hm
              injection hm with hm
              subst hm
              rfl
            · intro name2 hname2
              injection hname2 with hname2
              subst hname2
              exact ⟨_, rfl, rfl⟩
  · simp only [ne_eq, hn, not_false_eq_true, if_true, reduceIte]
    cases hM : MODES adapter (.num number) with
    | none =>
        unfold get_mode
        simp only [ne_eq, hn, not_false_eq_true, if_true, reduceIte, hM,
          Option.none_bind]
        exact ⟨by simp, by simp, by simp⟩
    | some name =>
        have hsome := ((MODES_names_resolve adapter _ name hM).1 number rfl)
        cases hG : GRAPHICS_MODES name with
        | none => rw [hG] at hsome; simp at hsome
        | some d =>
            unfold get_mode
            simp only [ne_eq, hn, not_false_eq_true, if_true, reduceIte, hM,
              Option.some_bind]
            unfold _get_graphics_mode
            rw [hG]
            simp only [Option.map_some']
            refine ⟨by simp, ?_, ?_⟩
            · intro m hm
              injection hm with hm
              subst hm
              rfl
            · intro name2 hname2
              injection hname2 with hname2
              subst hname2
              exact ⟨_, rfl, rfl⟩

/-- Witness for C2: MDA defines no mode 99, so `Resolve(99, 80, "mda",
...)` raises the illegal-function-call condition, while the defined CGA
mode 1 resolves. -/
theorem C2_get_mode_error_path_witness :
    get_mode 99 80 "mda" "mono" 16384
        = Except.error BasicError.illegal_function_call
    ∧ ∃ m, get_mode 1 80 "cga" "rgb" 16384 = Except.ok m
        ∧ m.name = "320x200x4" :=
  ⟨((C2_get_mode_error_path 99 80 "mda" "mono" 16384).1).mpr (by decide),
   (C2_get_mode_error_path 1 80 "cga" "rgb" 16384).2.2 "320x200x4" (by decide)⟩

/-! ## Claim C7 -/

/-- C7: the CGA width-retargeting entries map mode 1 with 80 columns to
mode 2 and mode 2 with 40 columns back to mode 1; and for every adapter,
every non-zero numeric key of its `TO_WIDTH` table is accompanied by the
graphics-mode name from `_MODES` as an equally valid key bound to the
same switch map. -/
theorem C7_to_width_number_and_name_keys :
    ((TO_WIDTH "cga" (.num 1)).bind (fun tbl => pyGet tbl 80) = some 2)
    ∧ ((TO_WIDTH "cga" (.num 2)).bind (fun tbl => pyGet tbl 40) = some 1)
    ∧ (∀ adapter nr tbl, nr ≠ 0 → TO_WIDTH adapter (.num nr) = some tbl →
        ∃ name, MODES adapter (.num nr) = some name
          ∧ TO_WIDTH adapter (.name name) = some tbl) := by
  refine ⟨by decide, by decide, ?_⟩
  have KEY : ∀ a ∈ ["cga", "ega", "vga", "mda", "ega_mono", "hercules",
      "tandy", "pcjr", "olivetti"],
      ∀ p ∈ TO_WIDTH_list, p.1 = to_width_alias a →
      ∀ q ∈ p.2, (q.1 != 0) = true →
        ((MODES a (.num q.1)).bind (fun name => TO_WIDTH a (.name name)))
            = some q.2
        ∧ (MODES a (.num q.1)).isSome := by decide
  intro a nr tbl hnr h
  unfold TO_WIDTH at h
  dsimp only [] at h
  cases hA : pyGet TO_WIDTH_list (to_width_alias a) with
  | none => rw [hA] at h; simp at h
  | some t =>
      rw [hA] at h
      simp only [Option.some_bind] at h
      have hmem := pyGet_mem _ _ _ hA
      have hq := pyGet_mem _ _ _ h
      have ha9 : a ∈ ["cga", "ega", "vga", "mda", "ega_mono", "hercules",
          "tandy", "pcjr", "olivetti"] := by
        by_cases hv : a = "vga"
        · simp [hv]
        by_cases htd : a = "tandy"
        · simp [htd]
        have halias : to_width_alias a = a := by
          unfold to_width_alias
          rw [if_neg hv, if_neg htd]
        rw [halias] at hmem
        have hkeys : ∀ p ∈ TO_WIDTH_list,
            p.1 ∈ ["cga", "ega", "vga", "mda", "ega_mono", "hercules",
              "tandy", "pcjr", "olivetti"] := by decide
        exact hkeys _ hmem
      obtain ⟨hbind, hsome⟩ :=
        KEY a ha9 _ hmem rfl (nr, tbl) hq (bne_iff_ne.mpr hnr)
      cases hM : MODES a (.num nr) with
      | none => rw [hM] at hsome; simp at hsome
      | some name =>
          rw [hM] at hbind
          simp only [Option.some_bind] at hbind
          exact ⟨name, rfl, hbind⟩

/-- Witness for C7: CGA mode 1 has the name key `320x200x4` bound to the
same switch map as the numeric key. -/
theorem C7_to_width_number_and_name_keys_witness :
    ∃ name, MODES "cga" (.num 1) = some name
      ∧ TO_WIDTH "cga" (.name name) = some [(40, 1), (80, 2)] :=
  C7_to_width_number_and_name_keys.2.2 "cga" 1 [(40, 1), (80, 2)]
    (by decide) (by decide)

/-! ## Behaviour of the row-list constructor -/

/-- `_create_from_rows` on a non-empty list of equal-length rows builds
the grid with that width and height. -/
theorem create_from_rows_eq : ∀ (data : List (List Nat)) (w : Nat),
    data ≠ [] → (∀ r ∈ data, r.length = w) →
    create_from_rows data = some ⟨w, data.length, data⟩ := by
  intro data w hne hlen
  cases data with
  | nil => exact absurd rfl hne
  | cons r rs =>
      have hr : r.length = w := hlen r (by simp)
      simp only [create_from_rows]
      rw [if_pos]
      · rw [hr]
      · simp only [List.all_eq_true, decide_eq_true_eq]
        intro row hrow
        rw [hlen row hrow, hr]

/-- `_create_from_rows` fails (assertion) as soon as one row's length
differs from the first row's. -/
theorem create_from_rows_none : ∀ (r : List Nat) (rs : List (List Nat)) (row : List Nat),
    row ∈ r :: rs → row.length ≠ r.length → create_from_rows (r :: rs) = none := by
  intro r rs row hmem hbad
  simp only [create_from_rows]
  rw [if_neg]
  intro hall
  rw [List.all_eq_true] at hall
  exact hbad (by simpa using hall row hmem)

/-! ## Claim C5 -/

/-- C5 (amended): for a well-formed grid with at least one row whose
cells are all 0 or 1, and byte values with `back = 1 → fore = 1`,
`render` returns a grid of the same dimensions with exact positional
correspondence 0 → back, 1 → fore.  (For `back = 1` and `fore ≠ 1` the
second `replace` pass rewrites the bytes produced by the first, see the
counterexample.) -/
theorem C5_render_positional (m : ByteMatrix) (back fore : Nat)
    (hwf : m.WF) (hpos : 0 < m.height)
    (hbits : ∀ r ∈ m.rows, ∀ v ∈ r, v = 0 ∨ v = 1)
    (hback : back = 1 → fore = 1) :
    m.render back fore
      = some ⟨m.width, m.height,
          m.rows.map (List.map (fun v => if v = 0 then back else fore))⟩ := by
  obtain ⟨hh, hw⟩ := hwf
  have hmap : m.rows.map (fun r =>
        (r.map (fun b => if b = 0 then back else b)).map
          (fun b => if b = 1 then fore else b))
      = m.rows.map (List.map (fun v => if v = 0 then back else fore)) := by
    apply List.map_congr_left
    intro r hr
    rw [List.map_map]
    apply List.map_congr_left
    intro v hv
    rcases hbits r hr v hv with rfl | rfl
    · by_cases hb : back = 1
      · simp [Function.comp, hb, hback hb]
      · simp [Function.comp, hb]
    · simp [Function.comp]
  have hne : m.rows.map (List.map (fun v => if v = 0 then back else fore)) ≠ [] := by
    intro hc
    rw [List.map_eq_nil_iff] at hc
    rw [hc] at hh
    rw [hh] at hpos
    simp at hpos
  have hlen : ∀ r ∈ m.rows.map (List.map (fun v => if v = 0 then back else fore)),
      r.length = m.width := by
    intro r hr
    simp only [List.mem_map] at hr
    obtain ⟨r0, hr0, rfl⟩ := hr
    rw [List.length_map]
    exact hw r0 hr0
  unfold ByteMatrix.render
  rw [hmap, create_from_rows_eq _ m.width hne hlen, List.length_map, ← hh]

/-- Witness for C5: rendering a 0/1 bitmap with back 7 and fore 9. -/
theorem C5_render_positional_witness :
    ByteMatrix.render ⟨2, 1, [[0, 1]]⟩ 7 9 = some ⟨2, 1, [[7, 9]]⟩ :=
  C5_render_positional ⟨2, 1, [[0, 1]]⟩ 7 9 (by decide) (by decide)
    (by decide) (by decide)

/-- Counterexample for C5 as stated: with `back = 1` and `fore = 2` the
cell that was 0 becomes 2 (= fore), not 1 (= back), because the second
`replace` pass also rewrites the output of the first. -/
theorem C5_render_positional_counterexample :
    ByteMatrix.render ⟨1, 1, [[0]]⟩ 1 2 = some ⟨1, 1, [[2]]⟩
    ∧ ByteMatrix.render ⟨1, 1, [[0]]⟩ 1 2 ≠ some ⟨1, 1, [[1]]⟩ := by
  constructor
  · rfl
  · decide

/-! ## Claim C3 -/

/-- C3 (amended): slice indexing is clipped to bounds with half-open
array-slice semantics, and a column range may select nothing, yielding a
zero-width grid rather than an error; but a row range that selects no
rows makes `_create_from_rows` read `data[0]` of an empty list and fail,
so a row range entirely outside the grid raises rather than returning an
empty grid. -/
theorem C3_get_slice_clipping (m : ByteMatrix) (x y : Slice) (hwf : m.WF) :
    (0 < (pySlice y m.rows).length →
      m.getSS x y
        = some ⟨min (x.stop - x.start) (m.width - x.start),
                (pySlice y m.rows).length,
                (pySlice y m.rows).map (pySlice x)⟩)
    ∧ ((pySlice y m.rows).length = 0 → m.getSS x y = none)
    ∧ (∀ i r, m.rows[i]? = some r →
        m.getXS x i
          = some ⟨min (x.stop - x.start) (m.width - x.start), 1, [pySlice x r]⟩)
    ∧ (∀ i, m.rows[i]? = none → m.getXS x i = none) := by
  obtain ⟨hh, hw⟩ := hwf
  have hsub : ∀ r ∈ pySlice y m.rows, r ∈ m.rows := by
    intro r hr
    exact List.mem_of_mem_drop (List.mem_of_mem_take hr)
  have hxlen : ∀ r ∈ m.rows, (pySlice x r).length
      = min (x.stop - x.start) (m.width - x.start) := by
    intro r hr
    unfold pySlice
    rw [List.length_take, List.length_drop, hw r hr]
  refine ⟨?_, ?_, ?_, ?_⟩
  · intro hpos
    unfold ByteMatrix.getSS
    rw [create_from_rows_eq _ (min (x.stop - x.start) (m.width - x.start)) ?ne ?len]
    · rw [List.length_map]
    case ne =>
      intro hc
      rw [List.map_eq_nil_iff] at hc
      rw [hc] at hpos
      simp at hpos
    case len =>
      intro r hr
      simp only [List.mem_map] at hr
      obtain ⟨r0, hr0, rfl⟩ := hr
      exact hxlen r0 (hsub r0 hr0)
  · intro hzero
    unfold ByteMatrix.getSS
    rw [List.length_eq_zero] at hzero
    rw [hzero]
    rfl
  · intro i r hr
    have hrm : r ∈ m.rows := by
      obtain ⟨hlt, rfl⟩ := List.getElem?_eq_some_iff.mp hr
      exact List.getElem_mem hlt
    simp only [ByteMatrix.getXS, hr]
    rw [create_from_rows_eq _ (min (x.stop - x.start) (m.width - x.start))
      (by simp) ?_]
    · rfl
    · intro r0 hr0
      simp only [List.mem_singleton] at hr0
      subst hr0
      exact hxlen r hrm
  · intro i hi
    simp only [ByteMatrix.getXS, hi]

/-- Witness for C3 (amended): in-range and partly out-of-range column
slices are clipped; the row slice keeps both rows. -/
theorem C3_get_slice_clipping_witness :
    ByteMatrix.getSS ⟨3, 2, [[1, 2, 3], [4, 5, 6]]⟩ ⟨1, 5⟩ ⟨0, 9⟩
      = some ⟨2, 2, [[2, 3], [5, 6]]⟩ :=
  (C3_get_slice_clipping ⟨3, 2, [[1, 2, 3], [4, 5, 6]]⟩ ⟨1, 5⟩ ⟨0, 9⟩
    (by decide)).1 (by decide)

/-- Counterexample for C3 as stated: a row range entirely outside
`[0, height)` raises (IndexError on `data[0]` in `_create_from_rows`)
instead of returning a grid with an empty dimension. -/
theorem C3_get_slice_clipping_counterexample :
    ByteMatrix.getSS ⟨1, 1, [[0]]⟩ ⟨0, 1⟩ ⟨5, 9⟩ = none := by decide

/-! ## Claim C4 -/

theorem foldl_min_const : ∀ (L : List Nat) (h : Nat),
    (∀ x ∈ L, x = h) → L.foldl min h = h := by
  intro L
  induction L with
  | nil => intro h _; rfl
  | cons x t ih =>
      intro h hall
      have hx : x = h := hall x (by simp)
      subst hx
      simp only [List.foldl_cons, min_self]
      exact ih x (fun y hy => hall y (by simp [hy]))

/-- On lists of equal length `h`, Python `zip(*lists)` is the transpose
with `h` tuples. -/
theorem zipAll_uniform : ∀ (ls : List (List (List Nat))) (h : Nat),
    ls ≠ [] → (∀ l ∈ ls, l.length = h) →
    zipAll ls = (List.range h).map (fun i => ls.map (fun l => l.getD i [])) := by
  intro ls h hne hlen
  cases ls with
  | nil => exact absurd rfl hne
  | cons l rest =>
      unfold zipAll
      dsimp only []
      have hl : l.length = h := hlen l (by simp)
      have hmin : (rest.map List.length).foldl min l.length = h := by
        rw [hl]
        apply foldl_min_const
        intro x hx
        simp only [List.mem_map] at hx
        obtain ⟨l0, hl0, rfl⟩ := hx
        exact hlen l0 (by simp [hl0])
      rw [hmin]

/-- C4 (amended): `vstack` fails with the rectangularity assertion
exactly when grids (each with at least one row) do not all share the
same width, and stacks all rows top to bottom when they do; `hstack`
performs no height check — `zip` truncates to the shortest input — and
for a nonempty sequence of same-height grids of positive height it
concatenates the grids row-wise side by side. -/
theorem C4_stack_shapes :
    (∀ (ms : List ByteMatrix) (h : Nat), (∀ m ∈ ms, m.WF) → ms ≠ [] →
      (∀ m ∈ ms, m.height = h) → 0 < h →
      hstack ms = some ⟨(ms.map ByteMatrix.width).sum, h,
        (List.range h).map
          (fun i => (ms.map (fun m => m.rows.getD i [])).flatten)⟩)
    ∧ (∀ (ms : List ByteMatrix) (w : Nat), (∀ m ∈ ms, m.WF) → ms ≠ [] →
      (∀ m ∈ ms, 0 < m.height) → (∀ m ∈ ms, m.width = w) →
      vstack ms = some ⟨w, (ms.map ByteMatrix.height).sum,
        (ms.map ByteMatrix.rows).flatten⟩)
    ∧ (∀ (m0 : ByteMatrix) (rest : List ByteMatrix),
        (∀ m ∈ m0 :: rest, m.WF) → (∀ m ∈ m0 :: rest, 0 < m.height) →
        (∃ m ∈ m0 :: rest, m.width ≠ m0.width) →
        vstack (m0 :: rest) = none) := by
  have rows_ne : ∀ (m : ByteMatrix), m.WF → 0 < m.height → m.rows ≠ [] := by
    intro m hwf hpos hc
    rw [hwf.1, hc] at hpos
    simp at hpos
  refine ⟨?_, ?_, ?_⟩
  · intro ms h hwf hne hh hpos
    unfold hstack
    rw [zipAll_uniform (ms.map ByteMatrix.rows) h (by simpa using hne) ?len1]
    case len1 =>
      intro l hl
      simp only [List.mem_map] at hl
      obtain ⟨m, hm, rfl⟩ := hl
      rw [← (hwf m hm).1]
      exact hh m hm
    rw [List.map_map]
    have hcomp : (List.flatten ∘ fun i => List.map (fun l => l.getD i [])
          (List.map ByteMatrix.rows ms))
        = fun i => (ms.map (fun m => m.rows.getD i [])).flatten := by
      funext i
      simp [Function.comp, List.map_map]
      rfl
    rw [hcomp]
    rw [create_from_rows_eq _ ((ms.map ByteMatrix.width).sum) ?ne2 ?len2]
    · rw [List.length_map, List.length_range]
    case ne2 =>
      intro hc
      have hlen0 : (List.map
          (fun i => (List.map (fun m => m.rows.getD i []) ms).flatten)
          (List.range h)).length = 0 := by
        rw [hc]
        rfl
      rw [List.length_map, List.length_range] at hlen0
      omega
    case len2 =>
      intro r hr
      simp only [List.mem_map, List.mem_range] at hr
      obtain ⟨i, hi, rfl⟩ := hr
      rw [List.length_flatten, List.map_map]
      have hmaps : List.map (List.length ∘ fun m => m.rows.getD i []) ms
          = List.map ByteMatrix.width ms := by
        apply List.map_congr_left
        intro m hm
        have hilt : i < m.rows.length := by
          rw [← (hwf m hm).1, hh m hm]
          exact hi
        show (m.rows.getD i []).length = m.width
        rw [List.getD_eq_getElem m.rows [] hilt]
        exact (hwf m hm).2 _ (List.getElem_mem hilt)
      rw [hmaps]
  · intro ms w hwf hne hpos hw
    obtain ⟨m0, rest, rfl⟩ := List.exists_cons_of_ne_nil hne
    unfold vstack
    rw [create_from_rows_eq _ w ?ne3 ?len3]
    · rw [List.length_flatten, List.map_map]
      have hmaps : List.map (List.length ∘ ByteMatrix.rows) (m0 :: rest)
          = List.map ByteMatrix.height (m0 :: rest) := by
        apply List.map_congr_left
        intro m hm
        exact ((hwf m hm).1).symm
      rw [hmaps]
    case ne3 =>
      have h0 : m0.rows ≠ [] := rows_ne m0 (hwf m0 (by simp)) (hpos m0 (by simp))
      simp only [List.map_cons, List.flatten_cons]
      intro hc
      rw [List.append_eq_nil] at hc
      exact h0 hc.1
    case len3 =>
      intro r hr
      rw [List.mem_flatten] at hr
      obtain ⟨l, hl, hrl⟩ := hr
      simp only [List.mem_map] at hl
      obtain ⟨m, hm, rfl⟩ := hl
      rw [(hwf m hm).2 r hrl]
      exact hw m hm
  · intro m0 rest hwf hpos hbad
    obtain ⟨m, hm, hmw⟩ := hbad
    obtain ⟨r0, rs0, h0⟩ := List.exists_cons_of_ne_nil
      (rows_ne m0 (hwf m0 (by simp)) (hpos m0 (by simp)))
    obtain ⟨rbad, rsb, hb⟩ := List.exists_cons_of_ne_nil
      (rows_ne m (hwf m hm) (hpos m hm))
    unfold vstack
    have hflat : ((m0 :: rest).map ByteMatrix.rows).flatten
        = r0 :: (rs0 ++ (rest.map ByteMatrix.rows).flatten) := by
      simp only [List.map_cons, List.flatten_cons, h0, List.cons_append]
    rw [hflat]
    apply create_from_rows_none _ _ rbad
    · rw [← hflat]
      rw [List.mem_flatten]
      exact ⟨m.rows, List.mem_map_of_mem ByteMatrix.rows hm, by simp [hb]⟩
    · have h1 : rbad.length = m.width := (hwf m hm).2 rbad (by simp [hb])
      have h2 : r0.length = m0.width := (hwf m0 (by simp)).2 r0 (by simp [h0])
      rw [h1, h2]
      exact hmw

/-- Witness for C4 (amended): stacking two same-height grids side by
side, two same-width grids top to bottom, and a width mismatch making
`vstack` fail. -/
theorem C4_stack_shapes_witness :
    hstack [⟨1, 2, [[0], [9]]⟩, ⟨1, 2, [[1], [8]]⟩]
        = some ⟨2, 2, [[0, 1], [9, 8]]⟩
    ∧ vstack [⟨2, 1, [[1, 2]]⟩, ⟨2, 2, [[3, 4], [5, 6]]⟩]
        = some ⟨2, 3, [[1, 2], [3, 4], [5, 6]]⟩
    ∧ vstack [⟨2, 1, [[1, 2]]⟩, ⟨3, 1, [[1, 2, 3]]⟩] = none := by
  refine ⟨?_, ?_, ?_⟩
  · have := C4_stack_shapes.1 [⟨1, 2, [[0], [9]]⟩, ⟨1, 2, [[1], [8]]⟩] 2
      (by decide) (by decide) (by decide) (by decide)
    rw [this]
    decide
  · have := C4_stack_shapes.2.1 [⟨2, 1, [[1, 2]]⟩, ⟨2, 2, [[3, 4], [5, 6]]⟩] 2
      (by decide) (by decide) (by decide) (by decide)
    rw [this]
    decide
  · exact C4_stack_shapes.2.2 ⟨2, 1, [[1, 2]]⟩ [⟨3, 1, [[1, 2, 3]]⟩]
      (by decide) (by decide) ⟨⟨3, 1, [[1, 2, 3]]⟩, by decide, by decide⟩

/-- Counterexample for C4 as stated: two grids of heights 2 and 1 do not
share the same height, yet `hstack` does not fail — `zip` silently
truncates to the shortest grid and returns a one-row result. -/
theorem C4_stack_shapes_counterexample :
    hstack [⟨1, 2, [[0], [0]]⟩, ⟨1, 1, [[1]]⟩] = some ⟨2, 1, [[0, 1]]⟩ := by
  decide

/-! ## Claim C1: bit-packing lemmas -/

theorem chunkList_nil (w : Nat) : chunkList w [] = [] := by
  unfold chunkList
  split_ifs with h
  · rfl
  · rw [List.length_nil, Nat.zero_add, Nat.div_eq_of_lt (by omega)]
    rfl

theorem chunkList_cons (w : Nat) (a b : List Nat) (hw : 0 < w) (ha : a.length = w) :
    chunkList w (a ++ b) = a :: chunkList w b := by
  unfold chunkList
  rw [if_neg (by omega), if_neg (by omega)]
  have hcount : ((a ++ b).length + w - 1) / w = (b.length + w - 1) / w + 1 := by
    rw [List.length_append, ha]
    rw [show w + b.length + w - 1 = (b.length + w - 1) + w from by omega]
    rw [Nat.add_div_right _ hw]
  rw [hcount, List.range_succ_eq_map, List.map_cons, List.map_map]
  congr 1
  · rw [Nat.zero_mul, List.drop_zero, ← ha, List.take_left]
  · apply List.map_congr_left
    intro o _
    show ((a ++ b).drop ((o + 1) * w)).take w = (b.drop (o * w)).take w
    rw [show (o + 1) * w = w + o * w from by ring]
    rw [← List.drop_drop, ← ha, List.drop_left]

theorem chunkList_flatten (w : Nat) (hw : 0 < w) :
    ∀ rows : List (List Nat), (∀ r ∈ rows, r.length = w) →
      chunkList w rows.flatten = rows := by
  intro rows
  induction rows with
  | nil => intro _; simpa using chunkList_nil w
  | cons r rs ih =>
      intro hlen
      rw [List.flatten_cons, chunkList_cons w r _ hw (hlen r (by simp))]
      rw [ih (fun x hx => hlen x (by simp [hx]))]

theorem chunkList_length_exact (w m : Nat) (hw : 0 < w) (l : List Nat)
    (hl : l.length = w * m) : (chunkList w l).length = m := by
  unfold chunkList
  rw [if_neg (by omega), List.length_map, List.length_range, hl]
  rw [show w * m + w - 1 = w * m + (w - 1) from by omega]
  rw [Nat.mul_add_div hw, Nat.div_eq_of_lt (by omega), Nat.add_zero]

theorem unpack_bytes_nil (n : Nat) : unpack_bytes [] n = [] := rfl

theorem unpack_bytes_cons (b : Nat) (S : List Nat) (n : Nat) :
    unpack_bytes (b :: S) n
      = (shiftsOf (8 / n)).map (fun sh => (b >>> sh) &&& ((1 <<< (8 / n)) - 1))
        ++ unpack_bytes S n := by
  simp [unpack_bytes]

theorem unpack_bytes_length (n : Nat) (hlen : (shiftsOf (8 / n)).length = n) :
    ∀ S : List Nat, (unpack_bytes S n).length = n * S.length := by
  intro S
  induction S with
  | nil => simp [unpack_bytes]
  | cons b S ih =>
      rw [unpack_bytes_cons, List.length_append, List.length_map, hlen, ih,
        List.length_cons]
      ring

theorem pack_bytes_nil (n : Nat) : pack_bytes [] n = [] := by
  simp [pack_bytes, chunkList_nil]

theorem pack_bytes_cons (n : Nat) (hn : 0 < n)
    (hlen : (shiftsOf (8 / n)).length = n)
    (c rest : List Nat) (hc : c.length = n) (hrest : n ∣ rest.length) :
    pack_bytes (c ++ rest) n
      = (List.zipWith (fun v sh => (v &&& ((1 <<< (8 / n)) - 1)) <<< sh) c
          (shiftsOf (8 / n))).sum :: pack_bytes rest n := by
  obtain ⟨k, hk⟩ := hrest
  unfold pack_bytes
  dsimp only []
  rw [List.length_append, hc, hk]
  rw [show (n + n * k) / n = 1 + k from by
    rw [show n + n * k = n * (1 + k) from by ring, Nat.mul_div_cancel_left _ hn]]
  rw [show n * k / n = k from Nat.mul_div_cancel_left _ hn]
  rw [Nat.add_comm 1 k, List.replicate_succ, List.flatten_cons]
  rw [List.zipWith_append _ _ _ _ _ (hc.trans hlen.symm)]
  rw [chunkList_cons n _ _ hn
    (by rw [List.length_zipWith, hc, hlen, Nat.min_self])]
  rw [List.map_cons]

theorem pack_bytes_length (n : Nat) (hn : 0 < n)
    (hlen : (shiftsOf (8 / n)).length = n) (L : List Nat) :
    (pack_bytes L n).length = L.length / n := by
  unfold pack_bytes
  dsimp only []
  rw [List.length_map]
  apply chunkList_length_exact n (L.length / n) hn
  rw [List.length_zipWith, List.length_flatten, List.map_replicate, hlen,
    List.sum_replicate, smul_eq_mul]
  rw [min_eq_right (Nat.div_mul_le_self _ _)]
  exact Nat.mul_comm _ _

/-- Direction 1: repacking the unpacked expansion of any byte string
gives back the bytes, provided each group of `items_per_byte` sub-values
re-sums to its source byte. -/
theorem pack_unpack_aux (n : Nat) (hn : 0 < n)
    (hlen : (shiftsOf (8 / n)).length = n)
    (hhead : ∀ b, b < 256 →
      (List.zipWith (fun v sh => (v &&& ((1 <<< (8 / n)) - 1)) <<< sh)
        ((shiftsOf (8 / n)).map (fun sh => (b >>> sh) &&& ((1 <<< (8 / n)) - 1)))
        (shiftsOf (8 / n))).sum = b) :
    ∀ S : List Nat, (∀ v ∈ S, v < 256) →
      pack_bytes (unpack_bytes S n) n = S := by
  intro S
  induction S with
  | nil => intro _; rw [unpack_bytes_nil, pack_bytes_nil]
  | cons b S ih =>
      intro hv
      rw [unpack_bytes_cons]
      rw [pack_bytes_cons n hn hlen _ _ (by rw [List.length_map, hlen])
        ⟨S.length, unpack_bytes_length n hlen S⟩]
      rw [hhead b (hv b (by simp)), ih (fun v hv2 => hv v (by simp [hv2]))]

/-- Direction 2: unpacking the packed form of a value string whose
values fit in the bit depth gives back the values, provided each packed
byte unpacks to its source chunk. -/
theorem unpack_pack_aux (n : Nat) (hn : 0 < n)
    (hlen : (shiftsOf (8 / n)).length = n)
    (hchunk : ∀ c : List Nat, c.length = n → (∀ v ∈ c, v < 2 ^ (8 / n)) →
      (shiftsOf (8 / n)).map (fun sh =>
        ((List.zipWith (fun v sh2 => (v &&& ((1 <<< (8 / n)) - 1)) <<< sh2) c
          (shiftsOf (8 / n))).sum >>> sh) &&& ((1 <<< (8 / n)) - 1)) = c) :
    ∀ (k : Nat) (S : List Nat), S.length = n * k →
      (∀ v ∈ S, v < 2 ^ (8 / n)) →
      unpack_bytes (pack_bytes S n) n = S := by
  intro k
  induction k with
  | zero =>
      intro S hS _
      have hnil : S = [] := List.length_eq_zero.mp (by omega)
      subst hnil
      rw [pack_bytes_nil, unpack_bytes_nil]
  | succ k ih =>
      intro S hS hv
      have htake : (S.take n).length = n := by
        rw [List.length_take]
        have : n ≤ S.length := by
          rw [hS, Nat.mul_succ]
          omega
        omega
      have hdrop : (S.drop n).length = n * k := by
        rw [List.length_drop, hS, Nat.mul_succ]
        omega
      have hsplit : S = S.take n ++ S.drop n := (List.take_append_drop n S).symm
      rw [hsplit, pack_bytes_cons n hn hlen _ _ htake ⟨k, hdrop⟩,
        unpack_bytes_cons]
      rw [hchunk _ htake (fun v hv2 => hv v (List.mem_of_mem_take hv2))]
      rw [ih _ hdrop (fun v hv2 => hv v (List.mem_of_mem_drop hv2))]

/-! ## Claim C1: the bit identities, checked for the four depths -/

set_option maxRecDepth 100000 in
theorem head_repack_items1 : ∀ b, b < 256 →
    (List.zipWith (fun v sh => (v &&& ((1 <<< (8 / 1)) - 1)) <<< sh)
      ((shiftsOf (8 / 1)).map (fun sh => (b >>> sh) &&& ((1 <<< (8 / 1)) - 1)))
      (shiftsOf (8 / 1))).sum = b := by decide

set_option maxRecDepth 100000 in
theorem head_repack_items2 : ∀ b, b < 256 →
    (List.zipWith (fun v sh => (v &&& ((1 <<< (8 / 2)) - 1)) <<< sh)
      ((shiftsOf (8 / 2)).map (fun sh => (b >>> sh) &&& ((1 <<< (8 / 2)) - 1)))
      (shiftsOf (8 / 2))).sum = b := by decide

set_option maxRecDepth 100000 in
theorem head_repack_items4 : ∀ b, b < 256 →
    (List.zipWith (fun v sh => (v &&& ((1 <<< (8 / 4)) - 1)) <<< sh)
      ((shiftsOf (8 / 4)).map (fun sh => (b >>> sh) &&& ((1 <<< (8 / 4)) - 1)))
      (shiftsOf (8 / 4))).sum = b := by decide

set_option maxRecDepth 100000 in
theorem head_repack_items8 : ∀ b, b < 256 →
    (List.zipWith (fun v sh => (v &&& ((1 <<< (8 / 8)) - 1)) <<< sh)
      ((shiftsOf (8 / 8)).map (fun sh => (b >>> sh) &&& ((1 <<< (8 / 8)) - 1)))
      (shiftsOf (8 / 8))).sum = b := by decide

set_option maxRecDepth 100000 in
theorem chunk_bits_items1 : ∀ v0 < 2 ^ (8 / 1),
    (shiftsOf (8 / 1)).map (fun sh =>
      ((List.zipWith (fun v sh2 => (v &&& ((1 <<< (8 / 1)) - 1)) <<< sh2)
        [v0] (shiftsOf (8 / 1))).sum >>> sh)
        &&& ((1 <<< (8 / 1)) - 1)) = [v0] := by decide

set_option maxRecDepth 100000 in
theorem chunk_bits_items2 : ∀ v0 < 2 ^ (8 / 2), ∀ v1 < 2 ^ (8 / 2),
    (shiftsOf (8 / 2)).map (fun sh =>
      ((List.zipWith (fun v sh2 => (v &&& ((1 <<< (8 / 2)) - 1)) <<< sh2)
        [v0, v1] (shiftsOf (8 / 2))).sum >>> sh)
        &&& ((1 <<< (8 / 2)) - 1)) = [v0, v1] := by decide

set_option maxRecDepth 100000 in
set_option synthInstance.maxSize 4096 in
theorem chunk_bits_items4 : ∀ v0 < 2 ^ (8 / 4), ∀ v1 < 2 ^ (8 / 4),
    ∀ v2 < 2 ^ (8 / 4), ∀ v3 < 2 ^ (8 / 4),
    (shiftsOf (8 / 4)).map (fun sh =>
      ((List.zipWith (fun v sh2 => (v &&& ((1 <<< (8 / 4)) - 1)) <<< sh2)
        [v0, v1, v2, v3] (shiftsOf (8 / 4))).sum >>> sh)
        &&& ((1 <<< (8 / 4)) - 1)) = [v0, v1, v2, v3] := by decide

set_option maxRecDepth 100000 in
set_option synthInstance.maxSize 4096 in
theorem chunk_bits_items8 : ∀ v0 < 2 ^ (8 / 8), ∀ v1 < 2 ^ (8 / 8),
    ∀ v2 < 2 ^ (8 / 8), ∀ v3 < 2 ^ (8 / 8), ∀ v4 < 2 ^ (8 / 8),
    ∀ v5 < 2 ^ (8 / 8), ∀ v6 < 2 ^ (8 / 8), ∀ v7 < 2 ^ (8 / 8),
    (shiftsOf (8 / 8)).map (fun sh =>
      ((List.zipWith (fun v sh2 => (v &&& ((1 <<< (8 / 8)) - 1)) <<< sh2)
        [v0, v1, v2, v3, v4, v5, v6, v7] (shiftsOf (8 / 8))).sum >>> sh)
        &&& ((1 <<< (8 / 8)) - 1)) = [v0, v1, v2, v3, v4, v5, v6, v7] := by decide

theorem chunk_unpack_items1 : ∀ c : List Nat, c.length = 1 →
    (∀ v ∈ c, v < 2 ^ (8 / 1)) →
    (shiftsOf (8 / 1)).map (fun sh =>
      ((List.zipWith (fun v sh2 => (v &&& ((1 <<< (8 / 1)) - 1)) <<< sh2) c
        (shiftsOf (8 / 1))).sum >>> sh) &&& ((1 <<< (8 / 1)) - 1)) = c := by
  intro c hc hv
  rcases c with _ | ⟨v0, c⟩
  · simp at hc
  rcases c with _ | ⟨v1, c⟩
  · exact chunk_bits_items1 v0 (hv v0 (by simp))
  · simp only [List.length_cons] at hc
    omega

theorem chunk_unpack_items2 : ∀ c : List Nat, c.length = 2 →
    (∀ v ∈ c, v < 2 ^ (8 / 2)) →
    (shiftsOf (8 / 2)).map (fun sh =>
      ((List.zipWith (fun v sh2 => (v &&& ((1 <<< (8 / 2)) - 1)) <<< sh2) c
        (shiftsOf (8 / 2))).sum >>> sh) &&& ((1 <<< (8 / 2)) - 1)) = c := by
  intro c hc hv
  rcases c with _ | ⟨v0, c⟩
  · simp at hc
  rcases c with _ | ⟨v1, c⟩
  · simp at hc
  rcases c with _ | ⟨v2, c⟩
  · exact chunk_bits_items2 v0 (hv v0 (by simp)) v1 (hv v1 (by simp))
  · simp only [List.length_cons] at hc
    omega

theorem chunk_unpack_items4 : ∀ c : List Nat, c.length = 4 →
    (∀ v ∈ c, v < 2 ^ (8 / 4)) →
    (shiftsOf (8 / 4)).map (fun sh =>
      ((List.zipWith (fun v sh2 => (v &&& ((1 <<< (8 / 4)) - 1)) <<< sh2) c
        (shiftsOf (8 / 4))).sum >>> sh) &&& ((1 <<< (8 / 4)) - 1)) = c := by
  intro c hc hv
  rcases c with _ | ⟨v0, c⟩
  · simp at hc
  rcases c with _ | ⟨v1, c⟩
  · simp at hc
  rcases c with _ | ⟨v2, c⟩
  · simp at hc
  rcases c with _ | ⟨v3, c⟩
  · simp at hc
  rcases c with _ | ⟨v4, c⟩
  · exact chunk_bits_items4 v0 (hv v0 (by simp)) v1 (hv v1 (by simp))
      v2 (hv v2 (by simp)) v3 (hv v3 (by simp))
  · simp only [List.length_cons] at hc
    omega

theorem chunk_unpack_items8 : ∀ c : List Nat, c.length = 8 →
    (∀ v ∈ c, v < 2 ^ (8 / 8)) →
    (shiftsOf (8 / 8)).map (fun sh =>
      ((List.zipWith (fun v sh2 => (v &&& ((1 <<< (8 / 8)) - 1)) <<< sh2) c
        (shiftsOf (8 / 8))).sum >>> sh) &&& ((1 <<< (8 / 8)) - 1)) = c := by
  intro c hc hv
  rcases c with _ | ⟨v0, c⟩
  · simp at hc
  rcases c with _ | ⟨v1, c⟩
  · simp at hc
  rcases c with _ | ⟨v2, c⟩
  · simp at hc
  rcases c with _ | ⟨v3, c⟩
  · simp at hc
  rcases c with _ | ⟨v4, c⟩
  · simp at hc
  rcases c with _ | ⟨v5, c⟩
  · simp at hc
  rcases c with _ | ⟨v6, c⟩
  · simp at hc
  rcases c with _ | ⟨v7, c⟩
  · simp at hc
  rcases c with _ | ⟨v8, c⟩
  · exact chunk_bits_items8 v0 (hv v0 (by simp)) v1 (hv v1 (by simp))
      v2 (hv v2 (by simp)) v3 (hv v3 (by simp)) v4 (hv v4 (by simp))
      v5 (hv v5 (by simp)) v6 (hv v6 (by simp)) v7 (hv v7 (by simp))
  · simp only [List.length_cons] at hc
    omega

/-! ## Claim C1: grid-level round trips -/

/-- `frompacked` at height 1 followed by `packed` is the identity on
non-empty byte strings. -/
theorem frompacked_packed_roundtrip (n : Nat) (hn : 0 < n)
    (hlen : (shiftsOf (8 / n)).length = n)
    (hhead : ∀ b, b < 256 →
      (List.zipWith (fun v sh => (v &&& ((1 <<< (8 / n)) - 1)) <<< sh)
        ((shiftsOf (8 / n)).map (fun sh => (b >>> sh) &&& ((1 <<< (8 / n)) - 1)))
        (shiftsOf (8 / n))).sum = b) :
    ∀ S : List Nat, S ≠ [] → (∀ v ∈ S, v < 256) →
      (ByteMatrix.frompacked S 1 n).map (fun g => g.packed n) = some S := by
  intro S hne hv
  have hpos : 0 < S.length := List.length_pos.mpr hne
  have hwpos : 0 < n * S.length := Nat.mul_pos hn hpos
  have hulen : (unpack_bytes S n).length = n * S.length :=
    unpack_bytes_length n hlen S
  unfold ByteMatrix.frompacked
  rw [if_neg (by omega)]
  dsimp only []
  rw [Nat.div_one, if_neg (by omega)]
  have hchunks : chunkList (n * S.length) (unpack_bytes S n)
      = [unpack_bytes S n] := by
    have h2 := chunkList_flatten (n * S.length) hwpos [unpack_bytes S n]
      (by intro r hr; simp only [List.mem_singleton] at hr; rw [hr, hulen])
    simpa using h2
  rw [hchunks, create_from_rows_eq _ (n * S.length) (by simp)
    (by intro r hr; simp only [List.mem_singleton] at hr; rw [hr, hulen])]
  simp only [Option.map_some', Option.some.injEq]
  show ByteMatrix.packed ⟨n * S.length, 1, [unpack_bytes S n]⟩ n = S
  unfold ByteMatrix.packed
  rw [show ([unpack_bytes S n] : List (List Nat)).flatten = unpack_bytes S n
    from by simp]
  exact pack_unpack_aux n hn hlen hhead S hv

/-- `packed` followed by `frompacked` at the grid's height rebuilds the
grid, for well-formed grids of positive dimensions whose values fit the
bit depth and whose cell count is a multiple of `items_per_byte`. -/
theorem packed_frompacked_roundtrip (n : Nat) (hn : 0 < n)
    (hlen : (shiftsOf (8 / n)).length = n)
    (hchunk : ∀ c : List Nat, c.length = n → (∀ v ∈ c, v < 2 ^ (8 / n)) →
      (shiftsOf (8 / n)).map (fun sh =>
        ((List.zipWith (fun v sh2 => (v &&& ((1 <<< (8 / n)) - 1)) <<< sh2) c
          (shiftsOf (8 / n))).sum >>> sh) &&& ((1 <<< (8 / n)) - 1)) = c) :
    ∀ G : ByteMatrix, G.WF → 0 < G.width → 0 < G.height →
      (∀ r ∈ G.rows, ∀ v ∈ r, v < 2 ^ (8 / n)) → n ∣ G.width * G.height →
      ByteMatrix.frompacked (G.packed n) G.height n = some G := by
  intro G hwf hW hH hvals hdvd
  obtain ⟨hh, hw⟩ := hwf
  obtain ⟨k, hk⟩ := hdvd
  have hflatlen : G.rows.flatten.length = G.width * G.height := by
    rw [List.length_flatten,
      List.map_congr_left (fun r hr => hw r hr),
      List.map_const', List.sum_replicate, smul_eq_mul, ← hh, Nat.mul_comm]
  have hvals2 : ∀ v ∈ G.rows.flatten, v < 2 ^ (8 / n) := by
    intro v hv
    rw [List.mem_flatten] at hv
    obtain ⟨r, hr, hvr⟩ := hv
    exact hvals r hr v hvr
  have hunpack : unpack_bytes (G.packed n) n = G.rows.flatten := by
    apply unpack_pack_aux n hn hlen hchunk k
    · rw [hflatlen, hk]
    · exact hvals2
  have hplen : (G.packed n).length = k := by
    show (pack_bytes G.rows.flatten n).length = k
    rw [pack_bytes_length n hn hlen, hflatlen, hk,
      Nat.mul_div_cancel_left _ hn]
  unfold ByteMatrix.frompacked
  rw [if_neg (by omega)]
  dsimp only []
  rw [hplen]
  rw [show n * k / G.height = G.width from by
    rw [← hk, Nat.mul_div_cancel _ hH]]
  rw [if_neg (by omega), hunpack,
    chunkList_flatten G.width hW G.rows hw,
    create_from_rows_eq G.rows G.width ?ne hw]
  · rw [← hh]
  case ne =>
    intro hc
    rw [hc] at hh
    simp only [List.length_nil] at hh
    omega

/-- C1 (amended): for every bit depth `b` in {1, 2, 4, 8} with
`items_per_byte = 8 / b`: packing the one-row grid unpacked from a
*non-empty* byte string `S` whose length is a multiple of `8 / b`
returns exactly `S`; and for every well-formed grid of *positive* width
and height whose values lie in `[0, 2^b)` and whose cell count is a
multiple of `items_per_byte`, unpacking the packed grid at the grid's
height rebuilds the grid.  (The empty string and degenerate grids make
`frompacked` raise instead — see the counterexample.) -/
theorem C1_pack_unpack_roundtrip (b : Nat) (hb : b = 1 ∨ b = 2 ∨ b = 4 ∨ b = 8)
    (S : List Nat) (hS : S ≠ []) (hSbytes : ∀ v ∈ S, v < 256)
    (hSlen : (8 / b) ∣ S.length)
    (G : ByteMatrix) (hwf : G.WF) (hGw : 0 < G.width) (hGh : 0 < G.height)
    (hGvals : ∀ r ∈ G.rows, ∀ v ∈ r, v < 2 ^ b)
    (hGdvd : (8 / b) ∣ G.width * G.height) :
    (ByteMatrix.frompacked S 1 (8 / b)).map (fun g => g.packed (8 / b)) = some S
    ∧ ByteMatrix.frompacked (G.packed (8 / b)) G.height (8 / b) = some G := by
  rcases hb with rfl | rfl | rfl | rfl
  · exact ⟨frompacked_packed_roundtrip 8 (by decide) (by decide)
        head_repack_items8 S hS hSbytes,
      packed_frompacked_roundtrip 8 (by decide) (by decide)
        chunk_unpack_items8 G hwf hGw hGh hGvals hGdvd⟩
  · exact ⟨frompacked_packed_roundtrip 4 (by decide) (by decide)
        head_repack_items4 S hS hSbytes,
      packed_frompacked_roundtrip 4 (by decide) (by decide)
        chunk_unpack_items4 G hwf hGw hGh hGvals hGdvd⟩
  · exact ⟨frompacked_packed_roundtrip 2 (by decide) (by decide)
        head_repack_items2 S hS hSbytes,
      packed_frompacked_roundtrip 2 (by decide) (by decide)
        chunk_unpack_items2 G hwf hGw hGh hGvals hGdvd⟩
  · exact ⟨frompacked_packed_roundtrip 1 (by decide) (by decide)
        head_repack_items1 S hS hSbytes,
      packed_frompacked_roundtrip 1 (by decide) (by decide)
        chunk_unpack_items1 G hwf hGw hGh hGvals hGdvd⟩

/-- Witness for C1: at bit depth 2 (four items per byte), the byte
string `[1, 2, 3, 250]` and the 2x2 grid `[[1, 2], [3, 0]]` round-trip. -/
theorem C1_pack_unpack_roundtrip_witness :
    (ByteMatrix.frompacked [1, 2, 3, 250] 1 (8 / 2)).map
        (fun g => g.packed (8 / 2)) = some [1, 2, 3, 250]
    ∧ ByteMatrix.frompacked
        ((⟨2, 2, [[1, 2], [3, 0]]⟩ : ByteMatrix).packed (8 / 2)) 2 (8 / 2)
      = some ⟨2, 2, [[1, 2], [3, 0]]⟩ :=
  C1_pack_unpack_roundtrip 2 (by decide) [1, 2, 3, 250] (by decide)
    (by decide) (by decide) ⟨2, 2, [[1, 2], [3, 0]]⟩ (by decide) (by decide)
    (by decide) (by decide) (by decide)

/-- Counterexample for C1 as stated: the empty byte string has length a
multiple of every `8 / b`, yet `frompacked` raises on it (`range` with a
zero step) instead of producing a grid, so the composite cannot return
`S`. -/
theorem C1_pack_unpack_roundtrip_counterexample :
    (ByteMatrix.frompacked ([] : List Nat) 1 (8 / 1)).map
        (fun g => g.packed (8 / 1)) = none
    ∧ (ByteMatrix.frompacked ([] : List Nat) 1 (8 / 1)).map
        (fun g => g.packed (8 / 1)) ≠ some ([] : List Nat) := by
  constructor <;> decide
